import Mathlib

set_option autoImplicit false

/-!
Verification of the Scrapper_Ine crawl/fetch/extract core against its
natural-language specification.

The Python sources are shallowly embedded: pure functions become Lean
functions, the stateful fetcher threads an explicit state, machine time is
modelled as `Nat` seconds, external collaborators (the HTTP transport,
`re.search`, the HTML parser) are passed in as explicit parameters, and code
paths that raise Python exceptions return `Except`/`Option` values.
-/

namespace Scrapper

/-! ## `crawl_cli.dedupe_entities`

An entity, as the deduplicator sees it: `dedupe_entities` reads the dict keys
`name`, `entity_type`, `telephone`, `email`, `url` (each absent key giving
`None`); the `segment` and `confidence` fields are carried along so that
theorems can talk about records the function does *not* consult.
-/

structure Entity where
  name : Option String
  entity_type : Option String
  segment : Option String
  telephone : Option String
  email : Option String
  url : Option String
  confidence : Nat
deriving DecidableEq, Repr

/-- Python `(x or "")` on an optional string field. -/
def orEmpty (x : Option String) : String := x.getD ""

/-- Python `str.strip()`: drop leading and trailing whitespace (modelled
character-wise so that concrete inputs evaluate). -/
def strTrim (s : String) : String :=
  String.mk
    (((s.data.dropWhile Char.isWhitespace).reverse.dropWhile Char.isWhitespace).reverse)

/-- Python `str.lower()` (ASCII case, which is all the embedded code relies
on), modelled character-wise. -/
def strLower (s : String) : String := String.mk (s.data.map Char.toLower)

/-- First-match association lookup on string keys (Python dict `get` /
`in` over the constant tables). -/
def lookupStr {α : Type} : List (String × α) → String → Option α
  | [], _ => none
  | (k, v) :: rest, key => if k = key then some v else lookupStr rest key

def digitsToNat : List Char → Nat → Nat
  | [], acc => acc
  | c :: rest, acc => digitsToNat rest (acc * 10 + (c.toNat - 48))

/-- Integer parse (the numeric coercion the table reader applies to
digit-only cells): an optional sign followed by at least one digit. -/
def strToInt (s : String) : Option Int :=
  match s.data with
  | [] => none
  | '-' :: rest =>
    if rest ≠ [] ∧ rest.all Char.isDigit then some (-(Int.ofNat (digitsToNat rest 0)))
    else none
  | cs =>
    if cs.all Char.isDigit then some (Int.ofNat (digitsToNat cs 0)) else none

abbrev DedupeKey := String × Option String × String × String × String

/-- The identity key exactly as `crawl_cli.dedupe_entities` computes it:
`((e.get("name") or "").strip().lower(), e.get("entity_type"),
(e.get("telephone") or "").strip(), (e.get("email") or "").strip(),
(e.get("url") or "").strip())`.  Note the second component is the legacy
`entity_type` alone; the `segment` field is never consulted. -/
def dedupeKey (e : Entity) : DedupeKey :=
  (strLower (strTrim (orEmpty e.name)), e.entity_type,
   strTrim (orEmpty e.telephone), strTrim (orEmpty e.email), strTrim (orEmpty e.url))

/-- The identity key as the specification words it: "(name lowercased and
trimmed, segment-or-legacy-type, telephone trimmed, email trimmed, url
trimmed)".  Written from the spec's words, to be compared against
`dedupeKey`, which is written from the source. -/
def specDedupeKey (e : Entity) : DedupeKey :=
  (strLower (strTrim (orEmpty e.name)), (e.segment <|> e.entity_type),
   strTrim (orEmpty e.telephone), strTrim (orEmpty e.email), strTrim (orEmpty e.url))

/-- The seen-set loop of `crawl_cli.dedupe_entities`: the Python code walks the
input once, skipping an entity whose key is already in `seen` and otherwise
adding the key and emitting the entity. -/
def dedupeGo (seen : List DedupeKey) : List Entity → List Entity
  | [] => []
  | e :: rest =>
    if dedupeKey e ∈ seen then dedupeGo seen rest
    else e :: dedupeGo (dedupeKey e :: seen) rest

/-- Embedding of `crawl_cli.dedupe_entities`. -/
def dedupe_entities (es : List Entity) : List Entity := dedupeGo [] es

/-- Reference formulation of "keep the first-seen record of every colliding
group, in stable first-occurrence order": keep the head and recurse on the
tail purged of later entities sharing the head's key. -/
def keepFirsts : List Entity → List Entity
  | [] => []
  | e :: rest =>
    e :: keepFirsts (rest.filter fun x => decide (dedupeKey x ≠ dedupeKey e))
termination_by es => es.length
decreasing_by
  simp only [List.length_cons]
  exact Nat.lt_succ_of_le (List.length_filter_le _ _)

/-! ## URLs and `crawl_cli.normalize_url`

URLs are modelled structurally, as the five components `urllib.parse`
manipulates (the `params` component is folded into `path`; none of the
embedded code separates it).  String-level checks of the source translate to
component-level checks: `href.startswith("mailto:")` holds exactly of URLs
whose parsed scheme is `mailto`, and the falsy-`href` guard corresponds to the
all-empty URL. -/

structure Url where
  scheme : String
  netloc : String
  path : String
  query : String
  fragment : String
deriving DecidableEq, Repr

def emptyUrl : Url := ⟨"", "", "", "", ""⟩

def splitSlash (s : String) : List String := s.splitOn "/"

def joinSlash (xs : List String) : String := String.intercalate "/" xs

/-- The dot-segment loop of `urllib.parse.urljoin`: `..` pops the resolved
prefix (ignoring underflow), `.` is dropped, anything else is appended. -/
def resolveSegs (acc : List String) : List String → List String
  | [] => acc
  | ".." :: rest => resolveSegs acc.dropLast rest
  | "." :: rest => resolveSegs acc rest
  | s :: rest => resolveSegs (acc ++ [s]) rest

/-- Embedding of `urllib.parse.urljoin`, component-level.  Mirrors CPython: an absolute
reference with a different scheme is returned unchanged; a reference carrying
a network location is returned with only the scheme defaulted; otherwise the
base's netloc is inherited and the path is merged with dot-segment
resolution (empty interior segments of a relative merge are dropped). -/
def urljoin (base url : Url) : Url :=
  if url = emptyUrl then base
  else if base = emptyUrl then url
  else if url.scheme ≠ "" ∧ url.scheme ≠ base.scheme then url
  else
    let scheme := if url.scheme = "" then base.scheme else url.scheme
    if url.netloc ≠ "" then { url with scheme := scheme }
    else
      let netloc := base.netloc
      if url.path = "" then
        { scheme := scheme, netloc := netloc, path := base.path,
          query := if url.query = "" then base.query else url.query,
          fragment := url.fragment }
      else
        let bp := splitSlash base.path
        let baseParts := if bp.getLast? = some "" then bp else bp.dropLast
        let segments :=
          if url.path.startsWith "/" then splitSlash url.path
          else
            match baseParts ++ splitSlash url.path with
            | [] => []
            | first :: rest =>
              match rest.reverse with
              | [] => [first]
              | last :: midRev =>
                first :: (midRev.reverse.filter fun s => decide (s ≠ "")) ++ [last]
        let resolved := resolveSegs [] segments
        let resolved :=
          if segments.getLast? = some "." ∨ segments.getLast? = some ".." then
            resolved ++ [""]
          else resolved
        let p := joinSlash resolved
        { scheme := scheme, netloc := netloc, path := if p = "" then "/" else p,
          query := url.query, fragment := url.fragment }

/-- Embedding of `crawl_cli.normalize_url`: reject falsy and `mailto:`/`tel:`/`javascript:`
hrefs, resolve against the base, strip the fragment (`urldefrag`), and keep
only `http`/`https` results. -/
def normalize_url (base : Url) : Option Url → Option Url
  | none => none
  | some href =>
    if href = emptyUrl then none
    else if href.scheme = "mailto" ∨ href.scheme = "tel" ∨ href.scheme = "javascript" then
      none
    else
      let full := urljoin base href
      let full := { full with fragment := "" }
      if full.scheme = "http" ∨ full.scheme = "https" then some full else none

/-! ## `scraper.core.Core` — the polite fetcher

The HTTP transport (`self.session.get`) is an external collaborator and is
passed in as a function from the attempt number to the attempt's outcome: an
HTTP response (status, optional `Retry-After` header, final URL, decoded
body, whether `requests_cache` served it) or a network-level exception.
Wall-clock time is modelled as `Nat` seconds; `time.sleep` advances the
clock; `random.uniform` jitter enters as an explicit parameter. -/

structure CoreCfg where
  minDelay : Nat
  maxRetries : Nat
deriving DecidableEq, Repr

/-- Constructor defaults of `Core.__init__`: `min_delay_s=3.0`, `max_retries=4`. -/
def defaultCfg : CoreCfg := ⟨3, 4⟩

inductive AttemptResult where
  | resp (status : Nat) (retryAfter : Option String) (finalUrl body : String)
      (fromCache : Bool)
  | netErr (msg : String)

inductive FetchErr where
  | httpError (status : Nat)
  | netError (msg : String)
deriving DecidableEq, Repr

/-- Outcome of `Core.fetch`: success, or the final
`RuntimeError(f"Failed to fetch {url}: {last_err}")` wrapping whatever
`last_err` holds when the attempt budget runs out. -/
inductive FetchOutcome where
  | ok (finalUrl body : String)
  | fetchError (lastErr : Option FetchErr)
deriving DecidableEq, Repr

/-- The attempt loop of `Core.fetch` (`while attempt <= self.max_retries`).
Returns the outcome together with the number of attempts made.  Branches in
source order: 200/304 return; 429/503 sleep and `continue`; 403 backs off and
`continue`s; any other status goes through `r.raise_for_status()`, whose
`HTTPError` (raised iff `400 <= status < 600`) is caught by the loop's own
`except Exception` handler, which records it in `last_err`, sleeps, and
retries; statuses below 400 fall through `raise_for_status` and return
successfully.  Network-level exceptions likewise set `last_err` and retry. -/
def fetchGo (transport : Nat → AttemptResult) (lastErr : Option FetchErr)
    (attempt : Nat) : Nat → FetchOutcome × Nat
  | 0 => (.fetchError lastErr, attempt)
  | remaining + 1 =>
    let a := attempt + 1
    match transport a with
    | .resp status _retryAfter finalUrl body _fromCache =>
      if status = 200 ∨ status = 304 then (.ok finalUrl body, a)
      else if status = 429 ∨ status = 503 then fetchGo transport lastErr a remaining
      else if status = 403 then fetchGo transport lastErr a remaining
      else if 400 ≤ status ∧ status < 600 then
        fetchGo transport (some (.httpError status)) a remaining
      else (.ok finalUrl body, a)
    | .netErr msg => fetchGo transport (some (.netError msg)) a remaining

/-- The whole attempt loop of `Core.fetch`: `attempt` starts at `0` and the
loop body runs while `attempt <= max_retries`, i.e. `max_retries + 1` times
unless it returns early. -/
def fetchLoop (transport : Nat → AttemptResult) (maxRetries : Nat) :
    FetchOutcome × Nat :=
  fetchGo transport none 0 (maxRetries + 1)

/-- The per-host rate-limit state `Core._last_fetch_per_host`, an assoc map
from host (netloc) to the timestamp of the last fetch. -/
structure CoreState where
  lastFetchPerHost : List (String × Nat)
deriving DecidableEq, Repr

def setHost (m : List (String × Nat)) (h : String) (t : Nat) : List (String × Nat) :=
  match m with
  | [] => [(h, t)]
  | (k, v) :: rest => if k = h then (h, t) :: rest else (k, v) :: setHost rest h t

def getHost (m : List (String × Nat)) (h : String) : Option Nat := lookupStr m h

/-- Embedding of `Core._throttle`: computes the enforced gap
`max(min_delay_s, crawl_delay) + jitter`, sleeps out the remainder since the
host's last fetch, and unconditionally stores the post-sleep clock as the
host's new last-fetch timestamp.  Returns the new state and the clock after
the sleep. -/
def _throttle (cfg : CoreCfg) (crawlDelay jitter now : Nat) (host : String)
    (st : CoreState) : CoreState × Nat :=
  let baseDelay := max cfg.minDelay crawlDelay
  let last := (getHost st.lastFetchPerHost host).getD 0
  let minGap := baseDelay + jitter
  let toWait := (last + minGap) - now
  let now2 := now + toWait
  (⟨setHost st.lastFetchPerHost host now2⟩, now2)

/-- Embedding of `Core.fetch` with its state effect: it calls `self._throttle(url)` first —
which writes `_last_fetch_per_host[host]` — and only then enters the attempt
loop; nothing later in the call touches the per-host map, whether the
transport serves the response from the `requests_cache` session or from the
network. -/
def fetch (cfg : CoreCfg) (crawlDelay jitter now : Nat) (host : String)
    (transport : Nat → AttemptResult) (st : CoreState) :
    CoreState × FetchOutcome × Nat :=
  let throttled := _throttle cfg crawlDelay jitter now host st
  (throttled.1, fetchLoop transport cfg.maxRetries)

/-! ## The crawl loop of `crawl_cli.main`

The loop's collaborators are parameters: `hostOf` is `urlparse(.).netloc`,
`denyRx`/`allowRx`/`keywordMatch` are the compiled regex searches,
`fetchOracle url` is `core.fetch(url)` (`none` when it raised), and
`linksOf html finalUrl` is `extract_links(html, final_url)`.  The state keeps
two ghost fields the Python code does not store — the list of URLs passed to
`core.fetch` and the number of `popleft`s — so that the frontier invariants
can be stated. -/

structure CrawlCfg where
  maxPages : Nat
  sameDomain : Bool
  allowedHosts : List String
  denyRx : Option (String → Bool)
  allowRx : Option (String → Bool)
  keywordMatch : String → Bool
  hostOf : String → String
  fetchOracle : String → Option (String × String)
  linksOf : String → String → List (String × Nat)

structure CrawlState where
  q : List String
  seen : List String
  pagesCrawled : Nat
  fetched : List String
  dequeues : Nat

/-- The link-discovery block at the bottom of the loop body: skip links
already seen, outside the allowed hosts (when `--same-domain`), or matching
the deny regex; keyword-relevant links go to the front of the deque, the rest
to the back. -/
def enqueueLink (cfg : CrawlCfg) (seen : List String) (q : List String)
    (link : String × Nat) : List String :=
  let next := link.1
  if next ∈ seen then q
  else if cfg.sameDomain ∧ cfg.hostOf next ∉ cfg.allowedHosts then q
  else if (match cfg.denyRx with | some rx => rx next | none => false) then q
  else if cfg.keywordMatch next then next :: q
  else q ++ [next]

/-- One iteration of `while q and pages_crawled < args.max_pages`: `none`
means the loop exits.  Mirrors the body in source order: popleft; skip if
seen; mark seen; domain check; deny check; allow check; fetch (a raising
fetch only logs and `continue`s); run extractors and log (data flow outside
these claims); discover and enqueue links; bump `pages_crawled`. -/
def crawlStep (cfg : CrawlCfg) (st : CrawlState) : Option CrawlState :=
  match st.q with
  | [] => none
  | url :: rest =>
    if cfg.maxPages ≤ st.pagesCrawled then none
    else if url ∈ st.seen then
      some ⟨rest, st.seen, st.pagesCrawled, st.fetched, st.dequeues + 1⟩
    else if cfg.sameDomain ∧ cfg.hostOf url ∉ cfg.allowedHosts then
      some ⟨rest, st.seen ++ [url], st.pagesCrawled, st.fetched, st.dequeues + 1⟩
    else if (match cfg.denyRx with | some rx => rx url | none => false) then
      some ⟨rest, st.seen ++ [url], st.pagesCrawled, st.fetched, st.dequeues + 1⟩
    else if (match cfg.allowRx with | some rx => !rx url | none => false) then
      some ⟨rest, st.seen ++ [url], st.pagesCrawled, st.fetched, st.dequeues + 1⟩
    else
      match cfg.fetchOracle url with
      | none => some ⟨rest, st.seen ++ [url], st.pagesCrawled, st.fetched, st.dequeues + 1⟩
      | some (finalUrl, html) =>
        some ⟨(cfg.linksOf html finalUrl).foldl (enqueueLink cfg (st.seen ++ [url])) rest,
              st.seen ++ [url], st.pagesCrawled + 1, st.fetched ++ [url], st.dequeues + 1⟩

/-- Iterate the crawl loop; `fuel` only bounds the unrolling (every claim
proved about the loop is an invariant, so it holds however long it runs). -/
def crawlRun (cfg : CrawlCfg) : Nat → CrawlState → CrawlState
  | 0, st => st
  | fuel + 1, st =>
    match crawlStep cfg st with
    | none => st
    | some st2 => crawlRun cfg fuel st2

/-- The loop's entry state: the deque holds the seeds, `seen_urls` is empty,
`pages_crawled` is zero. -/
def initState (seeds : List String) : CrawlState := ⟨seeds, [], 0, [], 0⟩

/-- The frontier invariant the crawl loop maintains: `seen_urls` has no
duplicates and grew by at most one per dequeue, and every URL handed to
`core.fetch` was fresh (fetched URLs are pairwise distinct and were all
marked seen). -/
def CrawlInv (st : CrawlState) : Prop :=
  st.seen.Nodup ∧ st.fetched.Nodup ∧ (∀ v ∈ st.fetched, v ∈ st.seen) ∧
    st.seen.length ≤ st.dequeues

/-! ## `tourism.classify_entity`

`re.search` (case-insensitive) is an external collaborator, passed in as
`matchRx : pattern → text → Bool`; the pattern strings are the source's
literal regexes.  The declared `@type` can be `None`, a string, or a list of
strings. -/

inductive RawType where
  | null
  | str (s : String)
  | list (ts : List String)
deriving DecidableEq, Repr

/-- Table `tourism.SCHEMA_TO_SEG_SUB`, in source order. -/
def SCHEMA_TO_SEG_SUB : List (String × String × Option String) :=
  [("Hotel", "accommodation", some "hotel"),
   ("LodgingBusiness", "accommodation", none),
   ("Hostel", "accommodation", some "hostal"),
   ("BedAndBreakfast", "accommodation", some "casa_rural"),
   ("Campground", "accommodation", some "camping"),
   ("Event", "experience", some "evento"),
   ("TouristAttraction", "experience", some "cultural"),
   ("Restaurant", "business", some "restaurante"),
   ("CafeOrCoffeeShop", "business", some "bar_cafe"),
   ("BarOrPub", "business", some "bar_cafe"),
   ("LocalBusiness", "business", none),
   ("TravelAgency", "business", some "agencia_viajes"),
   ("TouristInformationCenter", "business", some "info_turistica"),
   ("SportsActivityLocation", "business", some "turismo_activo")]

/-- Python `types = schema_type if isinstance(schema_type, list) else [schema_type]`,
with the falsy `None` entry dropped (the loop `continue`s on falsy `t`). -/
def rawTypeList : RawType → List String
  | .null => []
  | .str s => [s]
  | .list ts => ts

/-- The loop of `tourism._classify_by_schema`: first type found in the
mapping table wins (falsy entries skipped). -/
def findSchema : List String → Option (String × Option String)
  | [] => none
  | t :: rest =>
    if t = "" then findSchema rest
    else
      match lookupStr SCHEMA_TO_SEG_SUB t with
      | some p => some p
      | none => findSchema rest

/-- Embedding of `tourism._classify_by_schema`. -/
def _classify_by_schema (t : RawType) : Option String × Option String × String :=
  match findSchema (rawTypeList t) with
  | some (seg, sub) => (some seg, sub, "schema")
  | none => (none, none, "none")

/-- Python `re.sub(r"\s+", " ", s)`: collapse every whitespace run to one space. -/
def collapseWs : List Char → List Char
  | [] => []
  | c :: rest =>
    if c.isWhitespace then ' ' :: collapseWs (rest.dropWhile Char.isWhitespace)
    else c :: collapseWs rest
termination_by l => l.length
decreasing_by
  · simp only [List.length_cons]
    exact Nat.lt_succ_of_le (List.dropWhile_suffix _).length_le
  · simp

/-- Embedding of `tourism._tok`: collapse whitespace, strip, lowercase. -/
def _tok (s : String) : String := strLower (strTrim (String.mk (collapseWs s.data)))

/-- Embedding of `tourism._match_any`: `bool(re.search(rx, texto, re.I)) if rx else False`. -/
def _match_any (matchRx : String → String → Bool) (rx texto : String) : Bool :=
  if rx = "" then false else matchRx rx texto

/-- Table `tourism.KW`, groups and subtypes in source (insertion) order, patterns
verbatim. -/
def KW : List (String × List (String × String)) :=
  [("accommodation",
    [("hotel", r"\bhotel(?:es)?|h\s*\d?★|\b4\s*estrellas\b|\b5\s*estrellas\b"),
     ("hostal", r"\bhostal(?:es)?|pensi[oó]n"),
     ("apartamento", r"apart(amento|ament|ament[oó]s)|vivienda(?:s)? tur[ií]stica(?:s)?|aparthotel"),
     ("casa_rural", r"casa(?:s)? rural(?:es)?|agroturism|mas[ií]a"),
     ("camping", r"\bcamping|campament")]),
   ("experience",
    [("tour_guiado", r"\btour|visita guiada|guided tour|ruta guiada"),
     ("ruta_senderismo", r"\bruta(s)?|sender|itinerari|trail|track"),
     ("actividad_nautica", r"kayak|barco|paseo en barco|snorkel|buceo|vela|paddle\s*surf|sup|submarin"),
     ("gastronomia", r"cata|degustaci[oó]n|taller|cocina|showcooking|enotur|oleotur|gastronom"),
     ("cultural", r"museo|monumento|patrimonio|castillo|ermita|teatro"),
     ("evento", r"\bevento|agenda|festival|concierto|feria|fiesta")]),
   ("business",
    [("restaurante", r"restauran|trattoria|osteria|asador|arrocer|marisquer|pizzer"),
     ("bar_cafe", r"\bbar\b|caf[eé]|taper|bodega"),
     ("agencia_viajes", r"agencia de viajes|receptivo|incoming|tour operator"),
     ("turismo_activo", r"multiaventura|aventura|turismo activo|excursiones|guias? de montaña"),
     ("alquiler", r"alquiler|rent a (bike|car|scooter)|rent(?:al)?"),
     ("info_turistica", r"oficina de turismo|informaci[oó]n tur[ií]stica")])]

/-- Inner loop of the keyword scan: first matching subtype pattern of a group
wins; the score prefers a URL or name hit (65) over body text (60). -/
def kwFindSub (matchRx : String → String → Bool) (u n d t segKey : String) :
    List (String × String) → Option (Option String × Option String × String × Nat)
  | [] => none
  | (subKey, rx) :: rest =>
    if _match_any matchRx rx n || _match_any matchRx rx d || _match_any matchRx rx u
        || _match_any matchRx rx t then
      some (some segKey, some subKey, "keywords",
        if _match_any matchRx rx u || _match_any matchRx rx n then 65 else 60)
    else kwFindSub matchRx u n d t segKey rest

/-- Outer loop of the keyword scan over the groups of `KW`. -/
def kwFind (matchRx : String → String → Bool) (u n d t : String) :
    List (String × List (String × String)) →
      Option (Option String × Option String × String × Nat)
  | [] => none
  | (segKey, submap) :: restGroups =>
    match kwFindSub matchRx u n d t segKey submap with
    | some res => some res
    | none => kwFind matchRx u n d t restGroups

def urlHintAccommodation : String := r"/(hotel|aloj|apart|hostal|camping)/"

def urlHintExperience : String := r"/(experien|actividad|agenda|evento|ruta|tour)/"

def urlHintBusiness : String := r"/(restaur|bar|agencia|servici|empresa|info)/"

/-- Embedding of `tourism.classify_entity`: schema mapping first (score 80 with subtype,
70 without), then keywords, then URL-path hints, else fallback with score 40. -/
def classify_entity (matchRx : String → String → Bool) (raw_type : RawType)
    (url name description full_text : String) :
    Option String × Option String × String × Nat :=
  match _classify_by_schema raw_type with
  | (some seg, sub, _src) => (some seg, sub, "schema", if sub.isSome then 80 else 70)
  | (none, _, _) =>
    let u := _tok url
    let n := _tok name
    let d := _tok description
    let t := _tok full_text
    match kwFind matchRx u n d t KW with
    | some res => res
    | none =>
      if matchRx urlHintAccommodation u then (some "accommodation", none, "url", 55)
      else if matchRx urlHintExperience u then (some "experience", none, "url", 50)
      else if matchRx urlHintBusiness u then (some "business", none, "url", 50)
      else (none, none, "fallback", 40)

/-! ## `tourism.extract_tourism_entities`

HTML parsing is external: a page is represented by the parse results of its
`application/ld+json` script blocks (`none` = `_json_loads_loose` failed).
JSON values are modelled structurally. -/

inductive Json where
  | null
  | bool (b : Bool)
  | num (n : Int)
  | str (s : String)
  | arr (xs : List Json)
  | obj (kvs : List (String × Json))

/-- Python `dict.get` over the modelled JSON object (first binding wins). -/
def jget (kvs : List (String × Json)) (k : String) : Option Json :=
  match kvs with
  | [] => none
  | (k2, v) :: rest => if k2 = k then some v else jget rest k

/-- Python truthiness of a JSON value (`if not data: continue`). -/
def jtruthy : Json → Bool
  | .null => false
  | .bool b => b
  | .num n => decide (n ≠ 0)
  | .str s => decide (s ≠ "")
  | .arr xs => !xs.isEmpty
  | .obj kvs => !kvs.isEmpty

/-- Table `tourism.INTERESTING_TYPES`. -/
def INTERESTING_TYPES : List (String × String) :=
  [("Hotel", "hotel"), ("LodgingBusiness", "hotel"),
   ("TouristAttraction", "attraction"), ("Restaurant", "restaurant"),
   ("LocalBusiness", "local_business"), ("Organization", "organization"),
   ("Event", "event"), ("TravelAgency", "travel_agency"),
   ("TouristDestination", "destination")]

/-- Python `typ in INTERESTING_TYPES` (dict-key membership).  In the source a
list-valued `@type` would raise `TypeError` (unhashable) on this very
membership test before the `isinstance(typ, list)` alternative is reached, so
only a string `@type` can match; non-strings are modelled as no-match. -/
def typInteresting (typ : Option Json) : Bool :=
  match typ with
  | some (.str t) => (lookupStr INTERESTING_TYPES t).isSome
  | _ => false

/-- The entity record the claims speak about.  Note that the *source's*
`_normalize_entity` never constructs one (see below). -/
structure TourEntity where
  name : Option String
  entity_type : Option String
  segment : Option String
  segment_source : Option String
deriving DecidableEq, Repr

/-- Embedding of `tourism._normalize_entity` (tourism.py lines 247–375): the outer function
computes `typ`, then defines a *nested* function of the same name — which is
never called — and falls off the end of its body, so in Python it returns
`None` for every node.  (The nested body, lines 252–314, is the only place
the entity dict is built, and it itself reads variables such as `tel` and
`street` that are only assigned in dead code after its `return`.) -/
def _normalize_entity (node : Json) (base_url : String) : Option TourEntity :=
  let _typ := match node with | .obj kvs => jget kvs "@type" | _ => none
  let _base := base_url
  none

/-- The JSON-LD collection loop of `extract_tourism_entities`: script by
script, node by node, honouring the `@graph` grouping, appending
`_normalize_entity(node, ...)` for every node whose `@type` is interesting.
The optional `extruct` microdata/opengraph pass sits in a `try` block guarded
by `import extruct` and is modelled as absent. -/
def ldItems (scripts : List (Option Json)) (base_url : String) :
    List (Option TourEntity) :=
  scripts.foldl (fun acc sdata =>
    match sdata with
    | none => acc
    | some data =>
      if !jtruthy data then acc
      else
        let nodes := match data with | .arr xs => xs | d => [d]
        nodes.foldl (fun acc2 node =>
          match node with
          | .obj kvs =>
            match jget kvs "@graph" with
            | some (.arr gs) =>
              gs.foldl (fun acc3 g =>
                match g with
                | .obj gkvs =>
                  if typInteresting (jget gkvs "@type") then
                    acc3 ++ [_normalize_entity (Json.obj gkvs) base_url]
                  else acc3
                | _ => acc3) acc2
            | _ =>
              if typInteresting (jget kvs "@type") then
                acc2 ++ [_normalize_entity (Json.obj kvs) base_url]
              else acc2
          | _ => acc2) acc) []

/-- The final `(name, entity_type)` de-duplication loop of
`extract_tourism_entities`.  Its first statement evaluates `it.get("name")`;
when `it` is `None` — which `_normalize_entity` always returns — Python
raises `AttributeError`, modelled as the `Except.error`. -/
def tourismDedupGo (seen : List (Option String × Option String)) :
    List (Option TourEntity) → Except String (List TourEntity)
  | [] => .ok []
  | none :: _ => .error "AttributeError: NoneType object has no attribute get"
  | some it :: rest =>
    let key := (it.name, it.entity_type)
    if key ∈ seen then tourismDedupGo seen rest
    else
      match tourismDedupGo (key :: seen) rest with
      | .ok out => .ok (it :: out)
      | .error e => .error e

/-- Embedding of `tourism.extract_tourism_entities` over the page's JSON-LD blocks. -/
def extract_tourism_entities (scripts : List (Option Json)) (base_url : String) :
    Except String (List TourEntity) :=
  tourismDedupGo [] (ldItems scripts base_url)

/-! ## `html_tables.extract_html_tables`

A `<table>` element is modelled as its cell grid (each cell knowing whether
it is a `<th>`) plus its `id` attribute.  `pd.read_html` is modelled on its
documented behaviour: a leading all-`<th>` row becomes the header (otherwise
columns are the stringified integers `0, 1, …`), and a column whose every
cell parses as an integer is type-inferred to integers; `df.where(pd.notnull
(df), None)` turns missing cells into `None`. -/

structure HtmlCell where
  isHeader : Bool
  text : String
deriving DecidableEq, Repr

structure HtmlTable where
  id : Option String
  rows : List (List HtmlCell)
deriving DecidableEq, Repr

inductive Cell where
  | s (x : String)
  | n (x : Int)
  | null
deriving DecidableEq, Repr

structure TableItem where
  label : String
  schema : List String
  data : List (List Cell)
  url : String
deriving DecidableEq, Repr

/-- Convert one raw row under the per-column numeric-inference flags; cells
beyond the row's length are the `None` of `pd.notnull` filling. -/
def convertRow (numeric : List Bool) (row : List String) : List Cell :=
  (List.range numeric.length).map fun j =>
    match row.get? j with
    | none => .null
    | some s =>
      if numeric.getD j false then
        match strToInt s with
        | some k => .n k
        | none => .s s
      else .s s

/-- Model of `pd.read_html(str(tbl))[0]`: `none` models the raised exception (e.g. "No
tables found" on an empty grid), which the source's `except` clause skips. -/
def pdReadHtml (t : HtmlTable) : Option (List String × List (List Cell)) :=
  match t.rows with
  | [] => none
  | first :: rest =>
    if first.isEmpty then none
    else if first.all (·.isHeader) then
      let header := first.map (·.text)
      let dataRows := rest.map fun row => row.map (·.text)
      let numeric := (List.range header.length).map fun j =>
        !dataRows.isEmpty && dataRows.all fun row => ((row.get? j).bind strToInt).isSome
      some (header, dataRows.map (convertRow numeric))
    else
      let dataRows := (first :: rest).map fun row => row.map (·.text)
      let header := (List.range first.length).map toString
      let numeric := (List.range header.length).map fun j =>
        !dataRows.isEmpty && dataRows.all fun row => ((row.get? j).bind strToInt).isSome
      some (header, dataRows.map (convertRow numeric))

/-- Body of the `for i, tbl in enumerate(soup.select("table"))` loop: label
from the `id` attribute (falling back to `table_{i}` when absent or empty),
schema from the stringified columns, data from the null-safe cell grid; a
table `pd.read_html` chokes on is skipped. -/
def extractTablesGo (base_url : String) (i : Nat) :
    List HtmlTable → List TableItem
  | [] => []
  | t :: rest =>
    match pdReadHtml t with
    | none => extractTablesGo base_url (i + 1) rest
    | some (schema, data) =>
      let label :=
        match t.id with
        | some s => if s = "" then "table_" ++ toString i else s
        | none => "table_" ++ toString i
      { label := label, schema := schema, data := data, url := base_url }
        :: extractTablesGo base_url (i + 1) rest

/-- Embedding of `html_tables.extract_html_tables`. -/
def extract_html_tables (tables : List HtmlTable) (base_url : String) :
    List TableItem :=
  extractTablesGo base_url 0 tables

theorem mem_dedupeGo_not_seen (es : List Entity) :
    ∀ seen e, e ∈ dedupeGo seen es → dedupeKey e ∉ seen := by
  induction es with
  | nil => intro seen e h; simp [dedupeGo] at h
  | cons a rest ih =>
    intro seen e h
    by_cases ha : dedupeKey a ∈ seen
    · rw [dedupeGo, if_pos ha] at h
      exact ih seen e h
    · rw [dedupeGo, if_neg ha] at h
      rcases List.mem_cons.mp h with rfl | h2
      · exact ha
      · have := ih (dedupeKey a :: seen) e h2
        intro hmem
        exact this (List.mem_cons_of_mem _ hmem)

theorem dedupeGo_keys_pairwise (es : List Entity) :
    ∀ seen, (dedupeGo seen es).Pairwise (fun a b => dedupeKey a ≠ dedupeKey b) := by
  induction es with
  | nil => intro seen; simp [dedupeGo]
  | cons a rest ih =>
    intro seen
    by_cases ha : dedupeKey a ∈ seen
    · rw [dedupeGo, if_pos ha]; exact ih seen
    · rw [dedupeGo, if_neg ha]
      refine List.Pairwise.cons ?_ (ih (dedupeKey a :: seen))
      intro b hb heq
      have := mem_dedupeGo_not_seen rest (dedupeKey a :: seen) b hb
      exact this (heq ▸ List.mem_cons_self _ _)

theorem dedupeGo_of_fresh (es : List Entity) :
    ∀ seen, (∀ e ∈ es, dedupeKey e ∉ seen) →
      es.Pairwise (fun a b => dedupeKey a ≠ dedupeKey b) →
      dedupeGo seen es = es := by
  induction es with
  | nil => intro seen _ _; rfl
  | cons a rest ih =>
    intro seen hfresh hpw
    have ha : dedupeKey a ∉ seen := hfresh a (List.mem_cons_self _ _)
    rw [dedupeGo, if_neg ha]
    have hpw2 := List.pairwise_cons.mp hpw
    have : dedupeGo (dedupeKey a :: seen) rest = rest := by
      refine ih (dedupeKey a :: seen) ?_ hpw2.2
      intro e he hmem
      rcases List.mem_cons.mp hmem with h1 | h2
      · exact hpw2.1 e he h1.symm
      · exact hfresh e (List.mem_cons_of_mem _ he) h2
    rw [this]

/-- C7: deduplication is idempotent — for every entity list `es`,
`dedupe_entities (dedupe_entities es) = dedupe_entities es`; the output of
the seen-set loop has pairwise-distinct keys, so running it again changes
nothing. -/
theorem dedupe_entities_idempotent (es : List Entity) :
    dedupe_entities (dedupe_entities es) = dedupe_entities es := by
  unfold dedupe_entities
  refine dedupeGo_of_fresh _ [] (fun e _ h => (List.not_mem_nil _ h)) ?_
  exact dedupeGo_keys_pairwise es []

theorem dedupeGo_eq_keepFirsts (es : List Entity) :
    ∀ seen, dedupeGo seen es
      = keepFirsts (es.filter fun e => decide (dedupeKey e ∉ seen)) := by
  induction es with
  | nil => intro seen; simp [dedupeGo, keepFirsts]
  | cons a rest ih =>
    intro seen
    by_cases ha : dedupeKey a ∈ seen
    · rw [dedupeGo, if_pos ha, List.filter_cons]
      simp only [ha, not_true_eq_false, decide_False, if_false]
      exact ih seen
    · rw [dedupeGo, if_neg ha, List.filter_cons]
      simp only [ha, not_false_eq_true, decide_True, if_true]
      rw [keepFirsts, List.filter_filter, ih (dedupeKey a :: seen)]
      have hf : ∀ x ∈ rest,
          (decide (dedupeKey x ∉ dedupeKey a :: seen))
            = (decide (dedupeKey x ≠ dedupeKey a) && decide (dedupeKey x ∉ seen)) := by
        intro x _
        by_cases h1 : dedupeKey x = dedupeKey a <;>
          by_cases h2 : dedupeKey x ∈ seen <;>
            simp [h1, h2]
      rw [List.filter_congr hf]

/-- C5 (counterexample): two entities that differ in `segment` (with no
legacy `entity_type`) have different spec-claimed identity keys, so by the
claim they must not collide — yet `dedupe_entities` merges them, keeping only
the first. -/
theorem dedupe_entities_segment_ignored_cex :
    specDedupeKey ⟨some "Casa Azul", none, some "accommodation", some "111",
        some "a@b.c", some "http://x", 90⟩
      ≠ specDedupeKey ⟨some "Casa Azul", none, some "experience", some "111",
        some "a@b.c", some "http://x", 50⟩ ∧
    dedupe_entities
        [⟨some "Casa Azul", none, some "accommodation", some "111",
          some "a@b.c", some "http://x", 90⟩,
         ⟨some "Casa Azul", none, some "experience", some "111",
          some "a@b.c", some "http://x", 50⟩]
      = [⟨some "Casa Azul", none, some "accommodation", some "111",
          some "a@b.c", some "http://x", 90⟩] ∧
    ([(⟨some "Casa Azul", none, some "accommodation", some "111",
        some "a@b.c", some "http://x", 90⟩ : Entity)]
      ≠ [⟨some "Casa Azul", none, some "accommodation", some "111",
          some "a@b.c", some "http://x", 90⟩,
         ⟨some "Casa Azul", none, some "experience", some "111",
          some "a@b.c", some "http://x", 50⟩]) := by
  refine ⟨by decide, by decide, by decide⟩

/-- C5 (amended): `dedupe_entities` merges by the key (name trimmed and
lowercased, legacy `entity_type` — the `segment` field is not consulted —,
telephone trimmed, email trimmed, url trimmed): entities collide exactly when
they agree on this tuple, the first-seen record of each colliding group is
kept, and the output is in stable first-occurrence order; no two output
records share a key. -/
theorem dedupe_entities_first_seen (es : List Entity) :
    dedupe_entities es = keepFirsts es ∧
    (dedupe_entities es).Pairwise (fun a b => dedupeKey a ≠ dedupeKey b) := by
  constructor
  · have h := dedupeGo_eq_keepFirsts es []
    simpa [dedupe_entities] using h
  · exact dedupeGo_keys_pairwise es []

/-- Unfolding equation for `normalize_url` on a present href. -/
theorem normalize_url_some (base href : Url) :
    normalize_url base (some href)
      = (if href = emptyUrl then none
         else if href.scheme = "mailto" ∨ href.scheme = "tel"
             ∨ href.scheme = "javascript" then none
         else
           if ({ urljoin base href with fragment := "" } : Url).scheme = "http"
               ∨ ({ urljoin base href with fragment := "" } : Url).scheme = "https" then
             some { urljoin base href with fragment := "" }
           else none) := rfl

/-- C10: for every base URL and every valid absolute http(s) URL `u` (scheme
`http` or `https`, nonempty host), `normalize_url base u` returns `u` with
its fragment stripped — in particular it is not `none` and the scheme and
host are unchanged. -/
theorem normalize_url_absolute (base u : Url)
    (hs : u.scheme = "http" ∨ u.scheme = "https") (hn : u.netloc ≠ "") :
    normalize_url base (some u) = some { u with fragment := "" } := by
  have hsne : u.scheme ≠ "" := by rcases hs with h | h <;> simp [h]
  have hne : u ≠ emptyUrl := fun h => hsne (by rw [h]; rfl)
  have hm : ¬(u.scheme = "mailto" ∨ u.scheme = "tel" ∨ u.scheme = "javascript") := by
    rcases hs with h | h <;> simp [h]
  have hj : urljoin base u = u := by
    unfold urljoin
    rw [if_neg hne]
    by_cases hb : base = emptyUrl
    · rw [if_pos hb]
    · rw [if_neg hb]
      by_cases hd : u.scheme ≠ "" ∧ u.scheme ≠ base.scheme
      · rw [if_pos hd]
      · rw [if_neg hd]
        simp only [if_neg hsne, if_pos hn]
  rw [normalize_url_some, if_neg hne, if_neg hm, hj]
  have hs2 : ({ u with fragment := "" } : Url).scheme = "http"
      ∨ ({ u with fragment := "" } : Url).scheme = "https" := hs
  rw [if_pos hs2]

/-- C10 witness: a concrete absolute http URL with a fragment and a query,
normalized against an https base of a different host. -/
theorem normalize_url_absolute_witness :
    normalize_url ⟨"https", "seed.example", "/", "", ""⟩
        (some ⟨"http", "host.example", "/a", "q", "frag"⟩)
      = some ⟨"http", "host.example", "/a", "q", ""⟩ :=
  normalize_url_absolute ⟨"https", "seed.example", "/", "", ""⟩
    ⟨"http", "host.example", "/a", "q", "frag"⟩ (Or.inl rfl) (by decide)

/-- Helper: a transport that always answers 503 without `Retry-After` drives
the attempt loop through every remaining iteration without touching
`last_err`. -/
theorem fetchGo_const_503 (u b : Nat → String) (fc : Nat → Bool) :
    ∀ (remaining attempt : Nat) (lastErr : Option FetchErr),
      fetchGo (fun a => .resp 503 none (u a) (b a) (fc a)) lastErr attempt remaining
        = (.fetchError lastErr, attempt + remaining) := by
  intro remaining
  induction remaining with
  | zero => intro attempt lastErr; rfl
  | succ k ih =>
    intro attempt lastErr
    have hpeel : fetchGo (fun a => .resp 503 none (u a) (b a) (fc a)) lastErr
          attempt (k + 1)
        = fetchGo (fun a => .resp 503 none (u a) (b a) (fc a)) lastErr
          (attempt + 1) k := by
      simp [fetchGo]
    rw [hpeel, ih (attempt + 1) lastErr]
    have harith : attempt + 1 + k = attempt + (k + 1) := by omega
    rw [harith]

/-- C3: against a transport that always returns HTTP 503 with no
`Retry-After`, `fetch` makes exactly `maxRetries + 1` attempts and then
raises the final `RuntimeError` (here `last_err` is still `None`, since a
503 never assigns it). -/
theorem fetch_503_max_retries (u b : Nat → String) (fc : Nat → Bool)
    (maxRetries : Nat) :
    fetchLoop (fun a => .resp 503 none (u a) (b a) (fc a)) maxRetries
      = (.fetchError none, maxRetries + 1) := by
  unfold fetchLoop
  rw [fetchGo_const_503 u b fc (maxRetries + 1) 0 none, Nat.zero_add]

/-- C1 (counterexample): a transport that always answers HTTP 404 — a status
outside {200, 304, 429, 503, 403} — does not make `fetch` raise after the
first attempt: with the default `max_retries = 4` the loop performs all 5
attempts (the `HTTPError` from `raise_for_status` is caught by the loop's own
`except` handler and retried) before raising the wrapper error. -/
theorem fetch_404_not_immediate_cex :
    fetchLoop (fun _ => .resp 404 none "u" "b" false) 4
      = (.fetchError (some (.httpError 404)), 5) ∧ (5 : Nat) ≠ 1 :=
  ⟨rfl, by decide⟩

/-- Helper: once `last_err` holds the `HTTPError`, a constant non-retryable
error status keeps the loop retrying without changing it. -/
theorem fetchGo_const_status_aux (status : Nat) (u b : Nat → String)
    (fc : Nat → Bool)
    (h400 : 400 ≤ status) (h600 : status < 600)
    (h429 : status ≠ 429) (h503 : status ≠ 503) (h403 : status ≠ 403) :
    ∀ (remaining attempt : Nat),
      fetchGo (fun a => .resp status none (u a) (b a) (fc a))
          (some (.httpError status)) attempt remaining
        = (.fetchError (some (.httpError status)), attempt + remaining) := by
  have hA : ¬(status = 200 ∨ status = 304) := by omega
  have hB : ¬(status = 429 ∨ status = 503) := by omega
  have hD : 400 ≤ status ∧ status < 600 := ⟨h400, h600⟩
  intro remaining
  induction remaining with
  | zero => intro attempt; rfl
  | succ k ih =>
    intro attempt
    simp only [fetchGo, if_neg hA, if_neg hB, if_neg h403, if_pos hD]
    rw [ih (attempt + 1)]
    have harith : attempt + 1 + k = attempt + (k + 1) := by omega
    rw [harith]

/-- Helper: under a constant non-retryable error status the loop records the
`HTTPError` in `last_err` and keeps retrying until the budget is exhausted. -/
theorem fetchGo_const_status (status : Nat) (u b : Nat → String) (fc : Nat → Bool)
    (h400 : 400 ≤ status) (h600 : status < 600)
    (h429 : status ≠ 429) (h503 : status ≠ 503) (h403 : status ≠ 403) :
    ∀ (remaining attempt : Nat) (lastErr : Option FetchErr),
      fetchGo (fun a => .resp status none (u a) (b a) (fc a)) lastErr attempt
          (remaining + 1)
        = (.fetchError (some (.httpError status)), attempt + remaining + 1) := by
  have hA : ¬(status = 200 ∨ status = 304) := by omega
  have hB : ¬(status = 429 ∨ status = 503) := by omega
  have hD : 400 ≤ status ∧ status < 600 := ⟨h400, h600⟩
  intro remaining attempt lastErr
  simp only [fetchGo, if_neg hA, if_neg hB, if_neg h403, if_pos hD]
  rw [fetchGo_const_status_aux status u b fc h400 h600 h429 h503 h403 remaining
    (attempt + 1)]
  have harith : attempt + 1 + remaining = attempt + remaining + 1 := by omega
  rw [harith]

/-- C1 (amended): an HTTP status other than 200/304/429/503/403 in the range
[400, 600) raises `HTTPError` inside the attempt, but the loop's generic
`except` handler catches it, records it as `last_err`, backs off and retries
— so `fetch` does not terminate on the first such status; it performs all
`maxRetries + 1` attempts and then raises the wrapper error around the last
`HTTPError`. -/
theorem fetch_nonretryable_status_retried (status maxRetries : Nat)
    (u b : Nat → String) (fc : Nat → Bool)
    (h400 : 400 ≤ status) (h600 : status < 600)
    (h429 : status ≠ 429) (h503 : status ≠ 503) (h403 : status ≠ 403) :
    fetchLoop (fun a => .resp status none (u a) (b a) (fc a)) maxRetries
      = (.fetchError (some (.httpError status)), maxRetries + 1) := by
  unfold fetchLoop
  rw [fetchGo_const_status status u b fc h400 h600 h429 h503 h403 maxRetries 0 none,
    Nat.zero_add]

/-- C1 witness: the amended statement applied to a constant-410 transport
with the default retry budget. -/
theorem fetch_nonretryable_status_retried_witness :
    fetchLoop (fun _ => .resp 410 none "" "" false) 4
      = (.fetchError (some (.httpError 410)), 5) :=
  fetch_nonretryable_status_retried 410 4 (fun _ => "") (fun _ => "")
    (fun _ => false) (by decide) (by decide) (by decide) (by decide) (by decide)

theorem getHost_setHost (m : List (String × Nat)) (h : String) (t : Nat) :
    getHost (setHost m h t) h = some t := by
  induction m with
  | nil => simp [getHost, setHost, lookupStr]
  | cons kv rest ih =>
    obtain ⟨k, v⟩ := kv
    by_cases hk : k = h
    · subst hk
      simp [setHost, getHost, lookupStr]
    · simp only [setHost, if_neg hk]
      simp only [getHost, lookupStr, if_neg hk]
      exact ih

/-- C4 (counterexample): a `fetch` whose response is served from the cache
(`from_cache = true`, immediate 200) still rewrites the per-host last-fetch
timestamp, because `_throttle` runs — and stores `time.time()` — before the
session is even consulted: starting from timestamp 5 at clock 100, the map
afterwards holds 100, not the unchanged 5. -/
theorem fetch_cache_hit_timestamp_cex :
    getHost ((fetch ⟨3, 4⟩ 0 0 100 "h" (fun _ => .resp 200 none "u" "b" true)
        ⟨[("h", 5)]⟩).1.lastFetchPerHost) "h" = some 100 ∧
    (some 100 : Option Nat) ≠ some 5 ∧
    (fetch ⟨3, 4⟩ 0 0 100 "h" (fun _ => .resp 200 none "u" "b" true)
        ⟨[("h", 5)]⟩).2.1 = .ok "u" "b" :=
  ⟨rfl, by decide, rfl⟩

/-- C4 (amended): every `fetch(url)` call — cache-served or not, whatever the
transport does — overwrites the host's last-fetch timestamp with the time at
which `_throttle` finished, since the throttle runs unconditionally before
the request and nothing else touches the map. -/
theorem fetch_always_updates_timestamp (cfg : CoreCfg)
    (crawlDelay jitter now : Nat) (host : String)
    (transport : Nat → AttemptResult) (st : CoreState) :
    getHost (fetch cfg crawlDelay jitter now host transport st).1.lastFetchPerHost
        host
      = some (_throttle cfg crawlDelay jitter now host st).2 := by
  unfold fetch _throttle
  exact getHost_setHost _ _ _

/-- Helper: one crawl step preserves the frontier invariant. -/
theorem crawlStep_inv (cfg : CrawlCfg) (st st2 : CrawlState)
    (hinv : CrawlInv st) (hstep : crawlStep cfg st = some st2) : CrawlInv st2 := by
  obtain ⟨q, seen, pages, fetched, deq⟩ := st
  obtain ⟨h1, h2, h3, h4⟩ := hinv
  replace h1 : seen.Nodup := h1
  replace h2 : fetched.Nodup := h2
  replace h3 : ∀ v ∈ fetched, v ∈ seen := h3
  replace h4 : seen.length ≤ deq := h4
  rcases q with _ | ⟨url, rest⟩
  · exact absurd hstep (by simp [crawlStep])
  simp only [crawlStep] at hstep
  by_cases hp : cfg.maxPages ≤ pages
  · rw [if_pos hp] at hstep; exact absurd hstep (by simp)
  rw [if_neg hp] at hstep
  by_cases hseen : url ∈ seen
  · rw [if_pos hseen] at hstep
    cases hstep
    exact ⟨h1, h2, h3, Nat.le_succ_of_le h4⟩
  rw [if_neg hseen] at hstep
  have hnodup : (seen ++ [url]).Nodup := by
    refine List.Nodup.append h1 (List.nodup_singleton url) ?_
    intro a ha hb
    rw [List.mem_singleton] at hb
    subst hb; exact hseen ha
  have hlen : (seen ++ [url]).length ≤ deq + 1 := by
    rw [List.length_append, List.length_singleton]; omega
  have hsub : ∀ v ∈ fetched, v ∈ seen ++ [url] :=
    fun v hv => List.mem_append_left _ (h3 v hv)
  by_cases hd : cfg.sameDomain ∧ cfg.hostOf url ∉ cfg.allowedHosts
  · rw [if_pos hd] at hstep; cases hstep; exact ⟨hnodup, h2, hsub, hlen⟩
  rw [if_neg hd] at hstep
  by_cases hdeny : (match cfg.denyRx with | some rx => rx url | none => false) = true
  · rw [if_pos hdeny] at hstep; cases hstep; exact ⟨hnodup, h2, hsub, hlen⟩
  rw [if_neg hdeny] at hstep
  by_cases hallow : (match cfg.allowRx with | some rx => !rx url | none => false) = true
  · rw [if_pos hallow] at hstep; cases hstep; exact ⟨hnodup, h2, hsub, hlen⟩
  rw [if_neg hallow] at hstep
  rcases hf : cfg.fetchOracle url with _ | ⟨finalUrl, html⟩ <;> rw [hf] at hstep
  · cases hstep; exact ⟨hnodup, h2, hsub, hlen⟩
  · cases hstep
    refine ⟨hnodup, ?_, ?_, hlen⟩
    · refine List.Nodup.append h2 (List.nodup_singleton url) ?_
      intro a ha hb
      rw [List.mem_singleton] at hb
      exact hseen (hb ▸ h3 a ha)
    · intro v hv
      rcases List.mem_append.mp hv with hv1 | hv2
      · exact List.mem_append_left _ (h3 v hv1)
      · exact List.mem_append_right _ hv2

/-- Helper: the invariant holds after any number of crawl iterations. -/
theorem crawlRun_inv (cfg : CrawlCfg) (fuel : Nat) :
    ∀ st, CrawlInv st → CrawlInv (crawlRun cfg fuel st) := by
  induction fuel with
  | zero => intro st h; exact h
  | succ k ih =>
    intro st h
    unfold crawlRun
    rcases hs : crawlStep cfg st with _ | st2
    · exact h
    · exact ih st2 (crawlStep_inv cfg st st2 h hs)

/-- C6: however the crawl is configured (any filters, any link discovery, any
fetch outcomes) and however long it runs, no URL is handed to `core.fetch`
twice in one run, and after N dequeues the visited set has at most N
elements. -/
theorem crawl_no_refetch (cfg : CrawlCfg) (fuel : Nat) (seeds : List String) :
    (crawlRun cfg fuel (initState seeds)).fetched.Nodup ∧
    (crawlRun cfg fuel (initState seeds)).seen.length
      ≤ (crawlRun cfg fuel (initState seeds)).dequeues := by
  have h := crawlRun_inv cfg fuel (initState seeds)
    ⟨List.nodup_nil, List.nodup_nil, by simp [initState], by simp [initState]⟩
  exact ⟨h.2.1, h.2.2.2⟩

/-- C8: whenever the declared type carries an entry of the schema mapping
table, `classify_entity` returns source `"schema"` with score 70 or 80,
whatever `re.search` does on the url, name, description and page text — the
keyword and URL-hint scans are never reached. -/
theorem classify_entity_schema_precedence (matchRx : String → String → Bool)
    (raw_type : RawType) (url name description full_text : String)
    (seg : String) (sub : Option String)
    (h : findSchema (rawTypeList raw_type) = some (seg, sub)) :
    classify_entity matchRx raw_type url name description full_text
        = (some seg, sub, "schema", if sub.isSome then 80 else 70) ∧
      ((if sub.isSome then (80 : Nat) else 70) = 70 ∨
        (if sub.isSome then (80 : Nat) else 70) = 80) := by
  constructor
  · unfold classify_entity _classify_by_schema
    rw [h]
  · cases sub <;> simp

/-- C8 witness: a declared `Hotel` type wins over a matcher that claims every
keyword pattern matches everywhere. -/
theorem classify_entity_schema_precedence_witness :
    classify_entity (fun _ _ => true) (.str "Hotel") "https://x.test/restaurante"
        "Bar Pepe" "camping y agenda" "museo festival"
      = (some "accommodation", some "hotel", "schema", 80) :=
  (classify_entity_schema_precedence (fun _ _ => true) (.str "Hotel")
    "https://x.test/restaurante" "Bar Pepe" "camping y agenda" "museo festival"
    "accommodation" (some "hotel") rfl).1

/-- C2 (the code evaluated at the failing input): on a page embedding the
JSON-LD `{"@type": "Hotel", "name": "Hotel X", "telephone": "123"}`,
`extract_tourism_entities` does not return the claimed entity — its
`_normalize_entity` returns `None` (the real body is a never-called nested
redefinition), so the final dedup loop calls `.get` on `None` and the
function raises `AttributeError`. -/
theorem extract_tourism_entities_hotel_crashes :
    extract_tourism_entities
        [some (.obj [("@type", .str "Hotel"), ("name", .str "Hotel X"),
                     ("telephone", .str "123")])]
        "http://example.com"
      = .error "AttributeError: NoneType object has no attribute get" := rfl

/-- C9 (counterexample): on the claimed input table the extractor does
produce one item with schema `["A", "B"]` and a single data row, but the
row's cells are the *numbers* 1 and 2 — `pd.read_html` type-infers the
digit-only column — not the strings `"1"` and `"2"`. -/
theorem extract_html_tables_string_cells_cex :
    extract_html_tables
        [⟨some "t1", [[⟨true, "A"⟩, ⟨true, "B"⟩], [⟨false, "1"⟩, ⟨false, "2"⟩]]⟩]
        "http://example.com"
      = [⟨"t1", ["A", "B"], [[Cell.n 1, Cell.n 2]], "http://example.com"⟩] ∧
    [[Cell.n 1, Cell.n 2]] ≠ [[Cell.s "1", Cell.s "2"]] :=
  ⟨by decide, by decide⟩

/-- C9 (amended): the snippet
`<table id="t1"><tr><th>A</th><th>B</th></tr><tr><td>1</td><td>2</td></tr></table>`
yields exactly one Table item, labelled `t1`, with schema `["A", "B"]` and
one data row holding the integer values 1 and 2. -/
theorem extract_html_tables_single_table :
    extract_html_tables
        [⟨some "t1", [[⟨true, "A"⟩, ⟨true, "B"⟩], [⟨false, "1"⟩, ⟨false, "2"⟩]]⟩]
        "http://example.com"
      = [⟨"t1", ["A", "B"], [[Cell.n 1, Cell.n 2]], "http://example.com"⟩] := by
  decide

end Scrapper
